import Mathlib

/-!
Verification of the Health_data ingestion pipeline.

Shallow embedding of the ingestion scripts:
- `convert_apple_health.py` (quantity / category / workout loaders and the
  streaming batcher of `process_apple_health_export`),
- `ingest_lose_it.py` (`process_loseit_ZIP`, `insert_food_log`, `ingest_loseit`),
- `ingest_loseit.py` (`insert_df` calorie coercion),
- `ingest_glucose_data.py` (`ingest_glucose_data`),
- `scale_ingest.py` (`process_scale_csv`, `insert_scale_data`).

Modelling conventions:
- timestamps are integers (seconds); `pandas.to_datetime(..., errors="coerce")`
  on a raw attribute is abstracted by `TSAttr`: the attribute is either absent,
  present but unparsable (coerces to NaT), or present and parsing to a time `t`;
- numeric source fields are abstracted by `NumAttr`: absent, blank, non-numeric
  even after removing thousands separators, numeric only after removing
  thousands separators (e.g. "1,234"), or plainly numeric; numbers are `ℚ`;
- a SQL table is a `List` of row values in insertion order; `INSERT ... ON
  CONFLICT (natural key) DO NOTHING` executed row by row (`cur.executemany`)
  is `insertNoConflict`, which appends a row only when no row with the same
  natural key is already present and reports the number of rows inserted;
- a raised-and-caught exception around an insert (`conn.rollback()`; return 0)
  is modelled by returning the unchanged table together with the count 0.
-/

/-- A raw timestamp attribute as seen through `pandas.to_datetime(errors="coerce")`:
absent from the element, present but unparsable, or parsing to time `t`. -/
inductive TSAttr where
  | absent : TSAttr
  | unparsable : TSAttr
  | parsed (t : ℤ) : TSAttr
deriving DecidableEq, Repr

/-- A raw numeric attribute as seen through `float(...)` / `pandas.to_numeric`:
absent, blank (empty or whitespace only), non-numeric, numeric only once
thousands separators are stripped (value `q`), or plainly numeric (value `q`). -/
inductive NumAttr where
  | absent : NumAttr
  | blank : NumAttr
  | nonnumeric : NumAttr
  | numSep (q : ℚ) : NumAttr
  | num (q : ℚ) : NumAttr
deriving DecidableEq, Repr

/-- `convert_apple_health.validate_and_parse_timestamp`: `None`/empty input gives
`None`, `pd.to_datetime(..., errors="coerce")` gives `None` on NaT, otherwise
the parsed time. -/
def validate_and_parse_timestamp : TSAttr → Option ℤ
  | .absent => none
  | .unparsable => none
  | .parsed t => some t

/-- `convert_apple_health.parse_numeric_value`: `None`/blank input gives `None`,
`float(value_str)` raises on non-numeric strings (including strings containing
thousands separators), which is caught and turned into `None`. -/
def parse_numeric_value : NumAttr → Option ℚ
  | .absent => none
  | .blank => none
  | .nonnumeric => none
  | .numSep _ => none
  | .num q => some q

/-- `pandas.to_numeric(..., errors="coerce")` on one value: absent and
unparsable values (including ones with thousands separators, which
`to_numeric` does not accept) coerce to NaN, i.e. `none`. -/
def to_numeric_coerce : NumAttr → Option ℚ
  | .num q => some q
  | _ => none

/-- Python truthiness of an optional string (`None` and `""` are falsy),
as used by e.g. `if record.get("type") and ...`. -/
def pyTruthyStr : Option String → Bool
  | none => false
  | some s => s ≠ ""

/-- Python truthiness of an optional number (`None`, `0` and `0.0` are falsy),
as used by `if not duration_seconds ...`. -/
def pyTruthyNum : Option ℚ → Bool
  | none => false
  | some q => q ≠ 0

/-- `opt.getD d`, i.e. Python `dict.get(k, d)` where `opt` is the stored value. -/
def getOrDefault (opt : Option String) (d : String) : String := opt.getD d

section GenericLoader

variable {α κ : Type} [DecidableEq κ]

/-- Is a row with the same natural key as `r` already present in `store`? -/
def hasKey (key : α → κ) (store : List α) (r : α) : Bool :=
  store.any fun x => key x = key r

/-- Row-by-row `INSERT ... ON CONFLICT (key) DO NOTHING` over one batch, as
executed by `cur.executemany`: each row is inserted unless a row with the same
natural key is already in the table (earlier rows of the same batch included).
Returns the table after the batch together with the number of rows inserted. -/
def insertNoConflict (key : α → κ) : List α → List α → List α × ℕ
  | store, [] => (store, 0)
  | store, r :: rs =>
    if hasKey key store r then insertNoConflict key store rs
    else
      let out := insertNoConflict key (store ++ [r]) rs
      (out.1, out.2 + 1)

/-- Number of rows of a batch skipped because their natural key was already
present at their turn (specification-side counter for the loader). -/
def dupSkipped (key : α → κ) : List α → List α → ℕ
  | _, [] => 0
  | store, r :: rs =>
    if hasKey key store r then dupSkipped key store rs + 1
    else dupSkipped key (store ++ [r]) rs

/-- Loading a sequence of batches in order through `insertNoConflict`,
accumulating the inserted counts. -/
def loadBatches (key : α → κ) : List α → List (List α) → List α × ℕ
  | store, [] => (store, 0)
  | store, b :: bs =>
    let out := insertNoConflict key store b
    let rest := loadBatches key out.1 bs
    (rest.1, out.2 + rest.2)

/-- Conflict detection against a natural key with nullable columns, under
Postgres NULLS-DISTINCT semantics: a row whose key tuple contains a NULL
(key `none`) conflicts with nothing; otherwise a conflict is an existing row
with the same fully non-null key. -/
def hasKeyN (key : α → Option κ) (store : List α) (r : α) : Bool :=
  match key r with
  | none => false
  | some b => store.any fun x => key x = some b

/-- Row-by-row `INSERT ... ON CONFLICT ... DO NOTHING` against a unique
constraint over nullable columns: a row is skipped only when it actually
conflicts, and NULL-bearing key tuples never conflict, so such rows are
inserted every time. -/
def insertNoConflictN (key : α → Option κ) : List α → List α → List α × ℕ
  | store, [] => (store, 0)
  | store, r :: rs =>
    if hasKeyN key store r then insertNoConflictN key store rs
    else
      let out := insertNoConflictN key (store ++ [r]) rs
      (out.1, out.2 + 1)

/-- `loadBatches` over the nullable-key insert. -/
def loadBatchesN (key : α → Option κ) : List α → List (List α) → List α × ℕ
  | store, [] => (store, 0)
  | store, b :: bs =>
    let out := insertNoConflictN key store b
    let rest := loadBatchesN key out.1 bs
    (rest.1, out.2 + rest.2)

end GenericLoader

/-! ### Apple Health records (`convert_apple_health.py`) -/

/-- The attribute dictionary built for a quantity `Record` element in
`process_apple_health_export` (lines 363-370), which is also the input shape
of `insert_health_records_batch`.  The `source` entry is filled with
`elem.get("sourceName", "Apple Health")` at read time, so it is a stored
(possibly `None`) value here. -/
structure RawRecord where
  type : Option String
  startDate : TSAttr
  endDate : TSAttr
  value : NumAttr
  unit : Option String
  source : Option String
deriving DecidableEq, Repr

/-- A row of the `health_records` table, as inserted by
`insert_health_records_batch`. -/
structure HealthRow where
  type : String
  start_date : ℤ
  end_date : ℤ
  value : ℚ
  unit : Option String
  source_name : String
deriving DecidableEq, Repr

/-- Natural key of `health_records`: the `ON CONFLICT` target
`(type, start_date, end_date, value, source_name)` (note: `unit` excluded). -/
def healthKey (r : HealthRow) : String × ℤ × ℤ × ℚ × String :=
  (r.type, r.start_date, r.end_date, r.value, r.source_name)

/-- The validation loop of `insert_health_records_batch` (lines 127-149): a
record is kept when both timestamps parse, the `type` field is truthy and the
`value` field parses to a number; kept records become `health_records` rows. -/
def healthValidRecords (batch : List RawRecord) : List HealthRow :=
  batch.filterMap fun record =>
    match validate_and_parse_timestamp record.startDate,
          validate_and_parse_timestamp record.endDate with
    | some s, some e =>
      match parse_numeric_value record.value with
      | some v =>
        if pyTruthyStr record.type then
          some ⟨record.type.getD "", s, e, v, record.unit,
                getOrDefault record.source "Apple Health"⟩
        else none
      | none => none
    | _, _ => none

/-- `insert_health_records_batch`: validate the batch, then insert the valid
rows with `ON CONFLICT (type, start_date, end_date, value, source_name)
DO NOTHING`, returning the new table and the inserted count. -/
def insert_health_records_batch (store : List HealthRow) (batch : List RawRecord) :
    List HealthRow × ℕ :=
  insertNoConflict healthKey store (healthValidRecords batch)

/-- The attribute dictionary built for a category `Record` element
(lines 372-379); there is no `unit` entry and the raw `value` string is kept. -/
structure RawCatRecord where
  type : Option String
  startDate : TSAttr
  endDate : TSAttr
  value : Option String
  source : Option String
deriving DecidableEq, Repr

/-- A row of the `health_category_records` table. -/
structure CatRow where
  type : String
  start_date : ℤ
  end_date : ℤ
  value : Option String
  source_name : String
deriving DecidableEq, Repr

/-- Effective conflict key of `health_category_records` under the table's
constraint `UNIQUE (type, start_date, end_date, value, source_name)`: the
`value` column is nullable and Postgres treats NULLs in a unique constraint
as distinct, so a row with a NULL `value` has no effective conflict key
(`none`) and is never skipped. -/
def catKeyN (r : CatRow) : Option (String × ℤ × ℤ × String × String) :=
  r.value.map fun v => (r.type, r.start_date, r.end_date, v, r.source_name)

/-- The validation loop of `insert_category_records_batch` (lines 189-201): a
record is kept when both timestamps parse and `type` is truthy; the stored
`value` entry is passed through (`record.get("value", "")` returns the stored
value, which the reader set from `elem.get("value")`). -/
def catValidRecords (batch : List RawCatRecord) : List CatRow :=
  batch.filterMap fun record =>
    match validate_and_parse_timestamp record.startDate,
          validate_and_parse_timestamp record.endDate with
    | some s, some e =>
      if pyTruthyStr record.type then
        some ⟨record.type.getD "", s, e, record.value,
              getOrDefault record.source "Apple Health"⟩
      else none
    | _, _ => none

/-- `insert_category_records_batch`. -/
def insert_category_records_batch (store : List CatRow) (batch : List RawCatRecord) :
    List CatRow × ℕ :=
  insertNoConflictN catKeyN store (catValidRecords batch)

/-- The attribute dictionary built for a `Workout` element (lines 382-393). -/
structure RawWorkout where
  workoutActivityType : Option String
  startDate : TSAttr
  endDate : TSAttr
  duration : NumAttr
  durationUnit : Option String
  totalDistance : NumAttr
  totalDistanceUnit : Option String
  totalEnergyBurned : NumAttr
  totalEnergyBurnedUnit : Option String
  sourceName : Option String
deriving DecidableEq, Repr

/-- A row of the `workouts` table. -/
structure WorkoutRow where
  activity_type : String
  start_date : ℤ
  end_date : ℤ
  duration_seconds : Option ℚ
  total_distance : Option ℚ
  distance_unit : Option String
  total_energy_burned : Option ℚ
  energy_unit : Option String
  source_name : String
deriving DecidableEq, Repr

/-- Natural key of `workouts`: `(activity_type, start_date, end_date, source_name)`. -/
def workoutKey (r : WorkoutRow) : String × ℤ × ℤ × String :=
  (r.activity_type, r.start_date, r.end_date, r.source_name)

/-- The validation loop of `insert_workouts_batch` (lines 244-267): a workout
is kept when both timestamps parse and the activity type is truthy; its
duration is the parsed `duration` attribute unless that is `None` or `0`
(falsy), in which case it falls back to `end_date - start_date` in seconds. -/
def workoutValidRecords (batch : List RawWorkout) : List WorkoutRow :=
  batch.filterMap fun w =>
    match validate_and_parse_timestamp w.startDate,
          validate_and_parse_timestamp w.endDate with
    | some s, some e =>
      if pyTruthyStr w.workoutActivityType then
        let d0 := parse_numeric_value w.duration
        let d : Option ℚ := if pyTruthyNum d0 then d0 else some ((e - s : ℤ) : ℚ)
        some ⟨w.workoutActivityType.getD "", s, e, d,
              parse_numeric_value w.totalDistance, w.totalDistanceUnit,
              parse_numeric_value w.totalEnergyBurned, w.totalEnergyBurnedUnit,
              getOrDefault w.sourceName "Apple Health"⟩
      else none
    | _, _ => none

/-- `insert_workouts_batch`. -/
def insert_workouts_batch (store : List WorkoutRow) (batch : List RawWorkout) :
    List WorkoutRow × ℕ :=
  insertNoConflict workoutKey store (workoutValidRecords batch)

/-! ### The streaming batcher of `process_apple_health_export` -/

/-- The attributes of a top-level `Record` XML element.  The raw `value`
attribute is carried under both abstractions used downstream: `valueNum` is its
numeric view (quantity records) and `valueStr` its raw string view (category
records). -/
structure XmlRecord where
  type : Option String
  startDate : TSAttr
  endDate : TSAttr
  valueNum : NumAttr
  valueStr : Option String
  unit : Option String
  sourceName : Option String
deriving DecidableEq, Repr

/-- A top-level element of `export.xml`: a `Record`, a `Workout` (whose
attributes match the dictionary keys of lines 382-393), or any other tag,
which the loop ignores. -/
inductive XmlElem where
  | record (r : XmlRecord)
  | workout (w : RawWorkout)
  | otherTag
deriving DecidableEq, Repr

/-- Python `str.startswith`, spelt out structurally over the character lists. -/
def charsStartWith : List Char → List Char → Bool
  | _, [] => true
  | [], _ :: _ => false
  | c :: cs, p :: ps => c == p && charsStartWith cs ps

/-- `s.startswith(pat)`. -/
def strStartsWith (s pat : String) : Bool := charsStartWith s.toList pat.toList

/-- `record_type.startswith("HKQuantityTypeIdentifier")` with
`record_type = elem.get("type", "")`. -/
def isQuantityType (r : XmlRecord) : Bool :=
  strStartsWith (r.type.getD "") "HKQuantityTypeIdentifier"

/-- `record_type.startswith("HKCategoryTypeIdentifier")`. -/
def isCategoryType (r : XmlRecord) : Bool :=
  strStartsWith (r.type.getD "") "HKCategoryTypeIdentifier"

/-- The quantity-record dictionary appended for an element, if any
(lines 359-370): a `Record` whose type has the quantity prefix. -/
def quantityOf : XmlElem → Option RawRecord
  | .record r =>
    if isQuantityType r then
      some ⟨some (r.type.getD ""), r.startDate, r.endDate, r.valueNum, r.unit,
            some (getOrDefault r.sourceName "Apple Health")⟩
    else none
  | _ => none

/-- The category-record dictionary appended for an element, if any
(lines 372-379): a `Record` whose type has the category prefix (the branch is
an `elif`, so a quantity type is never also treated as a category). -/
def categoryOf : XmlElem → Option RawCatRecord
  | .record r =>
    if isQuantityType r then none
    else if isCategoryType r then
      some ⟨some (r.type.getD ""), r.startDate, r.endDate, r.valueStr,
            some (getOrDefault r.sourceName "Apple Health")⟩
    else none
  | _ => none

/-- The workout dictionary appended for an element, if any (lines 381-393);
`sourceName` is defaulted to `"Apple Health"` at read time. -/
def workoutOf : XmlElem → Option RawWorkout
  | .workout w => some { w with sourceName := some (getOrDefault w.sourceName "Apple Health") }
  | _ => none

/-- One iteration of the accumulate-and-flush logic for one record kind: if the
element yields a record of this kind it is appended to the accumulator, then
the accumulator is flushed as a batch when its length has reached the
configured batch size (lines 395-409). -/
def batchStep {α : Type} (B : ℕ) (st : List α × List (List α)) (x? : Option α) :
    List α × List (List α) :=
  let acc := match x? with
    | some x => st.1 ++ [x]
    | none => st.1
  if B ≤ acc.length then ([], st.2 ++ [acc]) else (acc, st.2)

/-- The in-flight state of the processing loop: one accumulator and one list of
already-flushed batches per record kind. -/
structure BatchState where
  qAcc : List RawRecord
  cAcc : List RawCatRecord
  wAcc : List RawWorkout
  qBatches : List (List RawRecord)
  cBatches : List (List RawCatRecord)
  wBatches : List (List RawWorkout)
deriving DecidableEq, Repr

def initialBatchState : BatchState := ⟨[], [], [], [], [], []⟩

/-- The body of the `for elem in root` loop (lines 350-409): classify and
append the element, then run the three flush checks. -/
def process_export_step (B : ℕ) (st : BatchState) (e : XmlElem) : BatchState :=
  let q := batchStep B (st.qAcc, st.qBatches) (quantityOf e)
  let c := batchStep B (st.cAcc, st.cBatches) (categoryOf e)
  let w := batchStep B (st.wAcc, st.wBatches) (workoutOf e)
  ⟨q.1, c.1, w.1, q.2, c.2, w.2⟩

/-- The whole processing loop over the element sequence. -/
def process_apple_health_export (B : ℕ) (elems : List XmlElem) : BatchState :=
  elems.foldl (process_export_step B) initialBatchState

/-- The end-of-stream flush (lines 411-422): a non-empty leftover accumulator
is handed to the loader as one final (possibly partial) batch. -/
def finalFlush {α : Type} (st : List α × List (List α)) : List (List α) :=
  if st.1.isEmpty then st.2 else st.2 ++ [st.1]

/-- All quantity-record batches handed to `insert_health_records_batch` during
one run, in order. -/
def exportQuantityBatches (B : ℕ) (elems : List XmlElem) : List (List RawRecord) :=
  let st := process_apple_health_export B elems
  finalFlush (st.qAcc, st.qBatches)

/-- All category-record batches handed to `insert_category_records_batch`. -/
def exportCategoryBatches (B : ℕ) (elems : List XmlElem) : List (List RawCatRecord) :=
  let st := process_apple_health_export B elems
  finalFlush (st.cAcc, st.cBatches)

/-- All workout batches handed to `insert_workouts_batch`. -/
def exportWorkoutBatches (B : ℕ) (elems : List XmlElem) : List (List RawWorkout) :=
  let st := process_apple_health_export B elems
  finalFlush (st.wAcc, st.wBatches)

/-- One full run of `process_apple_health_export` against the three tables:
every flushed batch is validated and loaded in flush order.  Returns, per
kind, the table after the run and the total inserted count. -/
def apple_ingest (B : ℕ) (hs : List HealthRow) (cs : List CatRow) (ws : List WorkoutRow)
    (elems : List XmlElem) :
    (List HealthRow × ℕ) × (List CatRow × ℕ) × (List WorkoutRow × ℕ) :=
  (loadBatches healthKey hs ((exportQuantityBatches B elems).map healthValidRecords),
   loadBatchesN catKeyN cs ((exportCategoryBatches B elems).map catValidRecords),
   loadBatches workoutKey ws ((exportWorkoutBatches B elems).map workoutValidRecords))

/-! ### LoseIt food log (`ingest_lose_it.py`, `ingest_loseit.py`) -/

/-- `pandas.to_datetime(..., errors="coerce")` on one value: unparsable or
missing input coerces to NaT, i.e. `none`. -/
def to_datetime_coerce : TSAttr → Option ℤ
  | .parsed t => some t
  | _ => none

/-- A LoseIt CSV row after the column renaming of `process_loseit_ZIP`
(lines 139-153). -/
structure LoseItRaw where
  log_date : TSAttr
  meal_type : Option String
  food_item : Option String
  calories_consumed : NumAttr
  protein_g : NumAttr
  carbs_g : NumAttr
  fat_g : NumAttr
deriving DecidableEq, Repr

/-- `pd.to_numeric(..., errors="coerce").fillna(0)` (`process_loseit_ZIP`
lines 164-168): a missing or unparsable numeric value becomes `0`. -/
def to_numeric_fill0 (v : NumAttr) : ℚ := (to_numeric_coerce v).getD 0

/-- A cleaned row as produced by `process_loseit_ZIP`. -/
structure CleanRow where
  log_date : ℤ
  meal_type : Option String
  food_item : Option String
  calories_consumed : ℚ
  protein_g : ℚ
  carbs_g : ℚ
  fat_g : ℚ
deriving DecidableEq, Repr

/-- The row-wise cleaning of `process_loseit_ZIP` (lines 133-168): rows whose
date is missing or does not parse are dropped (`dropna` around
`to_datetime(errors="coerce")`); the four numeric columns are coerced with
NaN replaced by `0`. -/
def process_loseit_rows (rows : List LoseItRaw) : List CleanRow :=
  rows.filterMap fun r =>
    match to_datetime_coerce r.log_date with
    | some d => some ⟨d, r.meal_type, r.food_item,
        to_numeric_fill0 r.calories_consumed, to_numeric_fill0 r.protein_g,
        to_numeric_fill0 r.carbs_g, to_numeric_fill0 r.fat_g⟩
    | none => none

/-- A row of the `food_log` table as inserted by `insert_food_log`. -/
structure FoodRow where
  log_date : ℤ
  meal_type : String
  food_item : String
  calories_consumed : ℚ
  protein_g : ℚ
  carbs_g : ℚ
  fat_g : ℚ
  source : String
deriving DecidableEq, Repr

/-- Natural key of `food_log`: the `ON CONFLICT` target
`(log_date, meal_type, food_item)`. -/
def foodKey (r : FoodRow) : ℤ × String × String := (r.log_date, r.meal_type, r.food_item)

/-- Python `a or b` on two numbers: `a` unless it is falsy (`0`), else `b`. -/
def pyNumOr (a b : ℚ) : ℚ := if a = 0 then b else a

/-- The per-row preparation of `insert_food_log` (lines 73-98) on a cleaned
row.  The cleaned date is already valid, so the `pd.isna(log_date)` skip does
not fire; `float(row.get(col, 0) or row.get(Legacy, 0) or 0)` sends a falsy
(zero) value through the fallbacks, which are all `0` here (the legacy column
names do not survive the renaming); a missing `meal_type` defaults to
`"Unknown"` and a falsy `food_item` falls back to `"Unknown"`. -/
def mkFoodRow (r : CleanRow) : FoodRow :=
  ⟨r.log_date, getOrDefault r.meal_type "Unknown",
   if pyTruthyStr r.food_item then r.food_item.getD "" else "Unknown",
   pyNumOr r.calories_consumed 0, pyNumOr r.protein_g 0,
   pyNumOr r.carbs_g 0, pyNumOr r.fat_g 0, "LoseIt"⟩

/-- `insert_food_log` (lines 43-119): prepare the rows, then insert them in
sub-batches of `batch_size` rows (`records_to_insert[i:i+batch_size]`), each
sub-batch run through `ON CONFLICT (log_date, meal_type, food_item) DO NOTHING`
and committed.  The Python function returns `None`; the resulting table is the
observable outcome. -/
def insert_food_log (batch_size : ℕ) (store : List FoodRow) (df : List CleanRow) :
    List FoodRow :=
  (loadBatches foodKey store ((df.map mkFoodRow).toChunks batch_size)).1

/-- The optional inclusive date filter of `ingest_loseit` in `ingest_lose_it.py`
(lines 198-208): `df[df[date_col] >= start_dt]` and `df[df[date_col] <= end_dt]`. -/
def filter_dates (startDate endDate : Option ℤ) (rows : List CleanRow) : List CleanRow :=
  let rows1 := match startDate with
    | some s => rows.filter fun r => s ≤ r.log_date
    | none => rows
  match endDate with
  | some e => rows1.filter fun r => r.log_date ≤ e
  | none => rows1

/-- `ingest_loseit`: clean the ZIP rows, apply the optional inclusive date
window, and insert what remains into `food_log`. -/
def ingest_loseit (startDate endDate : Option ℤ) (batch_size : ℕ)
    (store : List FoodRow) (rows : List LoseItRaw) : List FoodRow :=
  insert_food_log batch_size store (filter_dates startDate endDate (process_loseit_rows rows))

/-- Removing thousands separators from the raw string: a value that was
numeric only up to separators becomes plainly numeric. -/
def strip_separators : NumAttr → NumAttr
  | .numSep q => .num q
  | v => v

/-- The calorie coercion of `insert_df` in `ingest_loseit.py` (lines 43-45):
`astype(str).str.replace(",", "", regex=False)` strips thousands separators,
then `pd.to_numeric(errors="coerce")` leaves an unparsable value as NaN
(absent) — there is no `fillna(0)` in this variant. -/
def insert_df_calories (v : NumAttr) : Option ℚ :=
  to_numeric_coerce (strip_separators v)

/-! ### Glucose CSV (`ingest_glucose_data.py`) -/

/-- A glucose CSV row: the combined `date + " " + time` string as seen through
`to_datetime(errors="coerce")`, the glucose value column (`none` when the cell
is empty/NaN), the free-text meal tag, and the note. -/
structure GlucoseRaw where
  datetime : TSAttr
  glucose : Option ℚ
  meal_tag : Option String
  note : Option String
deriving DecidableEq, Repr

/-- A row of the `blood_glucose_meter` table. -/
structure GlucoseRow where
  reading_time : ℤ
  glucose_value : ℚ
  reading_context : Option String
  meal_relation : Option String
  notes : Option String
deriving DecidableEq, Repr

/-- Scan of the regex `\b(after|before)\s+(\w+)` over the space-separated words
of the meal tag: the first word following an `after`/`before` is returned. -/
def extract_meal_relation_words : List String → Option String
  | a :: b :: rest =>
    if (a = "after" || a = "before") && b ≠ "" then some b
    else extract_meal_relation_words (b :: rest)
  | _ => none

/-- `df["Meal Tag"].str.extract(r"\b(after|before)\s+(\w+)")` second group. -/
def extract_meal_relation : Option String → Option String
  | none => none
  | some s => extract_meal_relation_words (s.splitOn " ")

/-- The row processing of `ingest_glucose_data` (lines 36-47): build the
combined timestamp, then `dropna(subset=["datetime", "Blood Glucose (mg/dL)"])`
drops every row whose date/time combination is unparsable or whose glucose
value is missing; surviving rows become `blood_glucose_meter` rows.  Nothing
else is produced: dropped rows are not counted, classified or reported. -/
def glucose_process (rows : List GlucoseRaw) : List GlucoseRow :=
  rows.filterMap fun r =>
    match to_datetime_coerce r.datetime, r.glucose with
    | some t, some v =>
      some ⟨t, v, r.meal_tag, extract_meal_relation r.meal_tag, r.note⟩
    | _, _ => none

/-- A full row of the `blood_glucose_meter` table.  Besides the five columns
the insert of `ingest_glucose_data` supplies, the table has `source` and
`device_id` columns with no defaults, and its only unique constraint is
`UNIQUE (reading_time, source, device_id)` (`create_health_database.py`
line 201). -/
structure GlucoseTableRow where
  reading_time : ℤ
  glucose_value : ℚ
  reading_context : Option String
  meal_relation : Option String
  notes : Option String
  source : Option String
  device_id : Option String
deriving DecidableEq, Repr

/-- Effective conflict key of `blood_glucose_meter` under
`UNIQUE (reading_time, source, device_id)` with NULLS-DISTINCT semantics:
only a row whose `source` and `device_id` are both non-null can conflict. -/
def glucoseTableKey (r : GlucoseTableRow) : Option (ℤ × String × String) :=
  match r.source, r.device_id with
  | some s, some d => some (r.reading_time, s, d)
  | _, _ => none

/-- The column tuple `ingest_glucose_data` actually inserts, widened to a full
table row: `source` and `device_id` are not in the INSERT column list, so they
come out NULL. -/
def glucoseToTable (r : GlucoseRow) : GlucoseTableRow :=
  ⟨r.reading_time, r.glucose_value, r.reading_context, r.meal_relation, r.notes,
   none, none⟩

/-- The INSERT of `ingest_glucose_data` (lines 54-62): a bare
`ON CONFLICT DO NOTHING` whose arbiter is the table's unique constraint
`(reading_time, source, device_id)`; the inserted rows leave `source` and
`device_id` NULL, and NULLs in a unique constraint are distinct, so no row
this loader writes ever conflicts with anything. -/
def glucose_insert (store : List GlucoseTableRow) (df : List GlucoseRow) :
    List GlucoseTableRow × ℕ :=
  insertNoConflictN glucoseTableKey store (df.map glucoseToTable)

/-- `ingest_glucose_data`: process the CSV rows and insert the survivors. -/
def ingest_glucose_data (store : List GlucoseTableRow) (rows : List GlucoseRaw) :
    List GlucoseTableRow × ℕ :=
  glucose_insert store (glucose_process rows)

/-! ### Smart scale CSV (`scale_ingest.py`) -/

/-- A scale CSV row after `normalize_columns` and the renaming of
`process_scale_csv` (lines 118-126); the weight and muscle-mass values are
still in pounds at that point.  We model the common export without `source` /
`device_id` columns, for which the script fills fixed defaults. -/
structure ScaleRaw where
  timestamp : TSAttr
  weight_lb : NumAttr
  muscle_mass_lb : NumAttr
  body_fat_percentage : NumAttr
  bmi : NumAttr
  metabolic_age : NumAttr
  visceral_fat : NumAttr
  water_percentage : NumAttr
deriving DecidableEq, Repr

/-- The fixed pounds→kilograms conversion factor `0.453592` used in
`process_scale_csv` (lines 137-141). -/
def LB_TO_KG : ℚ := 453592 / 1000000

/-- A row of the `body_measurements` table. -/
structure ScaleRow where
  timestamp : ℤ
  weight_kg : Option ℚ
  muscle_mass_kg : Option ℚ
  body_fat_percentage : Option ℚ
  bmi : Option ℚ
  metabolic_age : Option ℚ
  visceral_fat : Option ℚ
  water_percentage : Option ℚ
  device_id : String
  source : String
deriving DecidableEq, Repr

/-- `process_scale_csv` on one row (lines 128-158): parse the timestamp and
drop the row when it does not parse; coerce the weight and muscle-mass columns
and multiply each, once, by `LB_TO_KG`; coerce the other numeric columns; fill
the `source` and `device_id` defaults. -/
def process_scale_row (r : ScaleRaw) : Option ScaleRow :=
  match to_datetime_coerce r.timestamp with
  | none => none
  | some t =>
    some ⟨t, (to_numeric_coerce r.weight_lb).map (· * LB_TO_KG),
          (to_numeric_coerce r.muscle_mass_lb).map (· * LB_TO_KG),
          to_numeric_coerce r.body_fat_percentage, to_numeric_coerce r.bmi,
          to_numeric_coerce r.metabolic_age, to_numeric_coerce r.visceral_fat,
          to_numeric_coerce r.water_percentage, "DefaultScale", "SmartScale"⟩

/-- `process_scale_csv` over the whole file. -/
def process_scale_csv (rows : List ScaleRaw) : List ScaleRow :=
  rows.filterMap process_scale_row

/-- Natural key of `body_measurements`: the `ON CONFLICT` target
`(timestamp, device_id)`. -/
def scaleKey (r : ScaleRow) : ℤ × String := (r.timestamp, r.device_id)

/-- `insert_scale_data` (lines 44-91). -/
def insert_scale_data (store : List ScaleRow) (df : List ScaleRow) :
    List ScaleRow × ℕ :=
  insertNoConflict scaleKey store df

/-! ### Loader result and failure model (`insert_health_records_batch`) -/

/-- Number of rows of a batch that the loader attempts to insert: the rows
surviving validation. -/
def attemptedCount (batch : List RawRecord) : ℕ := (healthValidRecords batch).length

/-- `insert_health_records_batch` in the presence of a store-level error:
`cur.executemany` raises when the store rejects some offending row (modelled
by the predicate `fails`); the `except` branch (lines 155-165) rolls the whole
batch back (`conn.rollback()`) and returns `0`.  The code has no
finer-grained, record-by-record retry path. -/
def insert_health_records_batch_failing (fails : HealthRow → Bool)
    (store : List HealthRow) (batch : List RawRecord) : List HealthRow × ℕ :=
  if (healthValidRecords batch).any fails then (store, 0)
  else insertNoConflict healthKey store (healthValidRecords batch)


/-- A small concrete export stream used to exercise the batcher: three quantity
records, one category record, one workout, one ignored element. -/
def sampleExportElems : List XmlElem :=
  [.record ⟨some "HKQuantityTypeIdentifierBodyMass", .parsed 1, .parsed 2, .num 3,
            some "3", some "kg", some "A"⟩,
   .otherTag,
   .record ⟨some "HKCategoryTypeIdentifierSleepAnalysis", .parsed 1, .parsed 2, .absent,
            some "InBed", none, some "A"⟩,
   .record ⟨some "HKQuantityTypeIdentifierBodyMass", .parsed 3, .parsed 4, .num 5,
            some "5", some "kg", some "A"⟩,
   .workout ⟨some "HKWorkoutActivityTypeWalking", .parsed 10, .parsed 20, .num 600,
             some "s", .num 1, some "km", .num 50, some "kcal", some "W"⟩,
   .record ⟨some "HKQuantityTypeIdentifierBodyMass", .parsed 5, .parsed 6, .num 7,
            some "7", some "kg", some "A"⟩]


section GenericLoaderLemmas

variable {α κ : Type} [DecidableEq κ]

theorem hasKey_append_left (key : α → κ) (s t : List α) (r : α)
    (h : hasKey key s r = true) : hasKey key (s ++ t) r = true := by
  simp only [hasKey, List.any_append, Bool.or_eq_true]
  exact Or.inl h

theorem insertNoConflict_store_append (key : α → κ) :
    ∀ (rows store : List α), ∃ t, (insertNoConflict key store rows).1 = store ++ t := by
  intro rows
  induction rows with
  | nil => intro store; exact ⟨[], by simp [insertNoConflict]⟩
  | cons r rs ih =>
    intro store
    rw [insertNoConflict]
    by_cases h : hasKey key store r = true
    · rw [if_pos h]
      exact ih store
    · rw [if_neg h]
      obtain ⟨t, ht⟩ := ih (store ++ [r])
      exact ⟨[r] ++ t, by rw [ht, List.append_assoc]⟩

theorem hasKey_insertNoConflict_of_mem (key : α → κ) :
    ∀ (rows store : List α) (r : α), r ∈ rows →
      hasKey key (insertNoConflict key store rows).1 r = true := by
  intro rows
  induction rows with
  | nil => intro _ _ hr; cases hr
  | cons x xs ih =>
    intro store r hr
    rw [insertNoConflict]
    rcases List.mem_cons.mp hr with h | h
    · subst h
      by_cases hx : hasKey key store r = true
      · rw [if_pos hx]
        obtain ⟨t, ht⟩ := insertNoConflict_store_append key xs store
        rw [ht]; exact hasKey_append_left key store t r hx
      · rw [if_neg hx]
        obtain ⟨t, ht⟩ := insertNoConflict_store_append key xs (store ++ [r])
        show hasKey key (insertNoConflict key (store ++ [r]) xs).1 r = true
        rw [ht]
        refine hasKey_append_left key _ t r ?_
        simp [hasKey]
    · by_cases hx : hasKey key store x = true
      · rw [if_pos hx]; exact ih store r h
      · rw [if_neg hx]; exact ih (store ++ [x]) r h

theorem insertNoConflict_noop (key : α → κ) :
    ∀ (rows store : List α), (∀ r ∈ rows, hasKey key store r = true) →
      insertNoConflict key store rows = (store, 0) := by
  intro rows
  induction rows with
  | nil => intro store _; rfl
  | cons x xs ih =>
    intro store h
    have hx : hasKey key store x = true := h x (List.mem_cons_self x xs)
    rw [insertNoConflict, if_pos hx]
    exact ih store fun r hr => h r (List.mem_cons_of_mem x hr)

theorem insertNoConflict_idem (key : α → κ) (store rows : List α) :
    insertNoConflict key (insertNoConflict key store rows).1 rows
      = ((insertNoConflict key store rows).1, 0) :=
  insertNoConflict_noop key rows _ fun r hr =>
    hasKey_insertNoConflict_of_mem key rows store r hr

theorem insertNoConflict_count (key : α → κ) :
    ∀ (rows store : List α),
      (insertNoConflict key store rows).2 + dupSkipped key store rows = rows.length := by
  intro rows
  induction rows with
  | nil => intro store; rfl
  | cons x xs ih =>
    intro store
    rw [insertNoConflict, dupSkipped]
    by_cases hx : hasKey key store x = true
    · rw [if_pos hx, if_pos hx, List.length_cons]
      rw [← Nat.add_assoc, ih store]
    · rw [if_neg hx, if_neg hx, List.length_cons]
      show (insertNoConflict key (store ++ [x]) xs).2 + 1 + dupSkipped key (store ++ [x]) xs
          = xs.length + 1
      have := ih (store ++ [x])
      omega

theorem loadBatches_store_append (key : α → κ) :
    ∀ (bs : List (List α)) (store : List α), ∃ t, (loadBatches key store bs).1 = store ++ t := by
  intro bs
  induction bs with
  | nil => intro store; exact ⟨[], by simp [loadBatches]⟩
  | cons b bs ih =>
    intro store
    obtain ⟨t1, ht1⟩ := insertNoConflict_store_append key b store
    obtain ⟨t2, ht2⟩ := ih (insertNoConflict key store b).1
    refine ⟨t1 ++ t2, ?_⟩
    show (loadBatches key (insertNoConflict key store b).1 bs).1 = store ++ (t1 ++ t2)
    rw [ht2, ht1, List.append_assoc]

theorem hasKey_loadBatches_of_mem (key : α → κ) :
    ∀ (bs : List (List α)) (store b : List α) (r : α), b ∈ bs → r ∈ b →
      hasKey key (loadBatches key store bs).1 r = true := by
  intro bs
  induction bs with
  | nil => intro _ _ _ hb; cases hb
  | cons x xs ih =>
    intro store b r hb hr
    rcases List.mem_cons.mp hb with h | h
    · subst h
      have h1 : hasKey key (insertNoConflict key store b).1 r = true :=
        hasKey_insertNoConflict_of_mem key b store r hr
      obtain ⟨t, ht⟩ := loadBatches_store_append key xs (insertNoConflict key store b).1
      show hasKey key (loadBatches key (insertNoConflict key store b).1 xs).1 r = true
      rw [ht]
      exact hasKey_append_left key _ t r h1
    · exact ih (insertNoConflict key store x).1 b r h hr

theorem loadBatches_noop (key : α → κ) :
    ∀ (bs : List (List α)) (store : List α),
      (∀ b ∈ bs, ∀ r ∈ b, hasKey key store r = true) →
      loadBatches key store bs = (store, 0) := by
  intro bs
  induction bs with
  | nil => intro store _; rfl
  | cons x xs ih =>
    intro store h
    have hx : insertNoConflict key store x = (store, 0) :=
      insertNoConflict_noop key x store (h x (List.mem_cons_self x xs))
    show (let out := insertNoConflict key store x
          let rest := loadBatches key out.1 xs
          (rest.1, out.2 + rest.2)) = (store, 0)
    rw [hx]
    have hxs : loadBatches key store xs = (store, 0) :=
      ih store fun b hb => h b (List.mem_cons_of_mem x hb)
    simpa using congrArg (fun p => (p.1, p.2)) hxs

theorem loadBatches_idem (key : α → κ) (store : List α) (bs : List (List α)) :
    loadBatches key (loadBatches key store bs).1 bs = ((loadBatches key store bs).1, 0) :=
  loadBatches_noop key bs _ fun b hb r hr =>
    hasKey_loadBatches_of_mem key bs store b r hb hr

theorem hasKeyN_eq_none (key : α → Option κ) (st : List α) (r : α)
    (hk : key r = none) : hasKeyN key st r = false := by
  unfold hasKeyN
  rw [hk]

theorem hasKeyN_eq_some (key : α → Option κ) (st : List α) (r : α) (b : κ)
    (hk : key r = some b) : hasKeyN key st r = st.any fun x => key x = some b := by
  unfold hasKeyN
  rw [hk]

theorem hasKeyN_append_left (key : α → Option κ) (s t : List α) (r : α)
    (h : hasKeyN key s r = true) : hasKeyN key (s ++ t) r = true := by
  cases hk : key r with
  | none => rw [hasKeyN_eq_none key s r hk] at h; cases h
  | some b =>
    rw [hasKeyN_eq_some key s r b hk] at h
    rw [hasKeyN_eq_some key (s ++ t) r b hk]
    simp only [List.any_append, Bool.or_eq_true]
    exact Or.inl h

theorem insertNoConflictN_store_append (key : α → Option κ) :
    ∀ (rows store : List α), ∃ t, (insertNoConflictN key store rows).1 = store ++ t := by
  intro rows
  induction rows with
  | nil => intro store; exact ⟨[], by simp [insertNoConflictN]⟩
  | cons r rs ih =>
    intro store
    rw [insertNoConflictN]
    by_cases h : hasKeyN key store r = true
    · rw [if_pos h]
      exact ih store
    · rw [if_neg h]
      obtain ⟨t, ht⟩ := ih (store ++ [r])
      exact ⟨[r] ++ t, by rw [ht, List.append_assoc]⟩

theorem hasKeyN_insertNoConflictN_of_mem (key : α → Option κ) :
    ∀ (rows store : List α) (r : α), r ∈ rows → key r ≠ none →
      hasKeyN key (insertNoConflictN key store rows).1 r = true := by
  intro rows
  induction rows with
  | nil => intro _ _ hr; cases hr
  | cons x xs ih =>
    intro store r hr hk
    rw [insertNoConflictN]
    rcases List.mem_cons.mp hr with h | h
    · subst h
      by_cases hx : hasKeyN key store r = true
      · rw [if_pos hx]
        obtain ⟨t, ht⟩ := insertNoConflictN_store_append key xs store
        rw [ht]; exact hasKeyN_append_left key store t r hx
      · rw [if_neg hx]
        obtain ⟨t, ht⟩ := insertNoConflictN_store_append key xs (store ++ [r])
        show hasKeyN key (insertNoConflictN key (store ++ [r]) xs).1 r = true
        rw [ht]
        refine hasKeyN_append_left key _ t r ?_
        obtain ⟨b, hb⟩ := Option.ne_none_iff_exists'.mp hk
        rw [hasKeyN_eq_some key (store ++ [r]) r b hb]
        simp [List.any_append, hb]
    · by_cases hx : hasKeyN key store x = true
      · rw [if_pos hx]; exact ih store r h hk
      · rw [if_neg hx]; exact ih (store ++ [x]) r h hk

theorem insertNoConflictN_noop (key : α → Option κ) :
    ∀ (rows store : List α), (∀ r ∈ rows, hasKeyN key store r = true) →
      insertNoConflictN key store rows = (store, 0) := by
  intro rows
  induction rows with
  | nil => intro store _; rfl
  | cons x xs ih =>
    intro store h
    have hx : hasKeyN key store x = true := h x (List.mem_cons_self x xs)
    rw [insertNoConflictN, if_pos hx]
    exact ih store fun r hr => h r (List.mem_cons_of_mem x hr)

theorem insertNoConflictN_idem (key : α → Option κ) (store rows : List α)
    (h : ∀ r ∈ rows, key r ≠ none) :
    insertNoConflictN key (insertNoConflictN key store rows).1 rows
      = ((insertNoConflictN key store rows).1, 0) :=
  insertNoConflictN_noop key rows _ fun r hr =>
    hasKeyN_insertNoConflictN_of_mem key rows store r hr (h r hr)

/-- Rows whose key tuple contains a NULL never conflict: the insert appends
every one of them and reports them all as inserted, every time. -/
theorem insertNoConflictN_all_none (key : α → Option κ) :
    ∀ (rows store : List α), (∀ r ∈ rows, key r = none) →
      insertNoConflictN key store rows = (store ++ rows, rows.length) := by
  intro rows
  induction rows with
  | nil => intro store _; simp [insertNoConflictN]
  | cons x xs ih =>
    intro store h
    have hx : hasKeyN key store x = false :=
      hasKeyN_eq_none key store x (h x (List.mem_cons_self x xs))
    rw [insertNoConflictN, if_neg (by rw [hx]; exact Bool.false_ne_true)]
    have := ih (store ++ [x]) fun r hr => h r (List.mem_cons_of_mem x hr)
    show ((insertNoConflictN key (store ++ [x]) xs).1,
          (insertNoConflictN key (store ++ [x]) xs).2 + 1)
        = (store ++ x :: xs, (x :: xs).length)
    rw [this]
    simp

end GenericLoaderLemmas

/-! ### Batcher lemmas -/

theorem batchStep_inv {α : Type} (B : ℕ) (hB : 1 ≤ B) (p : List α × List (List α))
    (x? : Option α) (h1 : p.1.length < B) (h2 : ∀ b ∈ p.2, b.length = B) :
    (batchStep B p x?).1.length < B
    ∧ (∀ b ∈ (batchStep B p x?).2, b.length = B)
    ∧ (batchStep B p x?).2.flatten ++ (batchStep B p x?).1
        = p.2.flatten ++ p.1 ++ x?.toList := by
  cases x? with
  | none =>
    have hstep : batchStep B p none
        = if B ≤ p.1.length then ([], p.2 ++ [p.1]) else (p.1, p.2) := rfl
    have hno : ¬ B ≤ p.1.length := Nat.not_le.mpr h1
    rw [hstep, if_neg hno]
    exact ⟨h1, h2, by simp⟩
  | some x =>
    have hstep : batchStep B p (some x)
        = if B ≤ (p.1 ++ [x]).length then ([], p.2 ++ [p.1 ++ [x]])
          else (p.1 ++ [x], p.2) := rfl
    rw [hstep]
    by_cases h : B ≤ (p.1 ++ [x]).length
    · rw [if_pos h]
      refine ⟨hB, ?_, ?_⟩
      · intro b hb
        rcases List.mem_append.mp hb with hb | hb
        · exact h2 b hb
        · have : b = p.1 ++ [x] := by simpa using hb
          subst this
          have : (p.1 ++ [x]).length = p.1.length + 1 := by simp
          omega
      · simp
    · rw [if_neg h]
      refine ⟨?_, h2, by simp⟩
      show (p.1 ++ [x]).length < B
      simp only [List.length_append, List.length_singleton] at h ⊢
      omega

theorem batchFold_inv {α : Type} (B : ℕ) (hB : 1 ≤ B) :
    ∀ (xs : List (Option α)) (p : List α × List (List α)),
      p.1.length < B → (∀ b ∈ p.2, b.length = B) →
      (xs.foldl (batchStep B) p).1.length < B
      ∧ (∀ b ∈ (xs.foldl (batchStep B) p).2, b.length = B)
      ∧ (xs.foldl (batchStep B) p).2.flatten ++ (xs.foldl (batchStep B) p).1
          = p.2.flatten ++ p.1 ++ xs.reduceOption := by
  intro xs
  induction xs with
  | nil => intro p h1 h2; exact ⟨h1, h2, by simp⟩
  | cons x xs ih =>
    intro p h1 h2
    obtain ⟨g1, g2, g3⟩ := batchStep_inv B hB p x h1 h2
    obtain ⟨f1, f2, f3⟩ := ih (batchStep B p x) g1 g2
    refine ⟨f1, f2, ?_⟩
    rw [List.foldl_cons, f3, g3]
    cases x <;> simp [List.append_assoc]

/-- The flushed batches of a run, once finally flushed, contain exactly the
accumulated stream content. -/
theorem finalFlush_flatten {α : Type} (p : List α × List (List α)) :
    (finalFlush p).flatten = p.2.flatten ++ p.1 := by
  unfold finalFlush
  by_cases h : p.1.isEmpty
  · rw [if_pos h, List.isEmpty_iff.mp h, List.append_nil]
  · rw [if_neg h]; simp

theorem finalFlush_sizes {α : Type} (B : ℕ) (p : List α × List (List α))
    (h1 : p.1.length < B) (h2 : ∀ b ∈ p.2, b.length = B) :
    ∀ b ∈ finalFlush p, b.length ≤ B := by
  intro b hb
  unfold finalFlush at hb
  by_cases h : p.1.isEmpty
  · rw [if_pos h] at hb; exact le_of_eq (h2 b hb)
  · rw [if_neg h] at hb
    rcases List.mem_append.mp hb with hb | hb
    · exact le_of_eq (h2 b hb)
    · have : b = p.1 := by simpa using hb
      subst this; omega

theorem finalFlush_dropLast {α : Type} (B : ℕ) (p : List α × List (List α))
    (h2 : ∀ b ∈ p.2, b.length = B) :
    ∀ b ∈ (finalFlush p).dropLast, b.length = B := by
  intro b hb
  unfold finalFlush at hb
  by_cases h : p.1.isEmpty
  · rw [if_pos h] at hb
    exact h2 b (List.dropLast_subset p.2 hb)
  · rw [if_neg h] at hb
    simp only [List.dropLast_concat] at hb
    exact h2 b hb

/-- The state fold projects, kind by kind, onto the generic single-stream
batcher fold. -/
theorem process_export_q_proj (B : ℕ) :
    ∀ (elems : List XmlElem) (st : BatchState),
      ((elems.foldl (process_export_step B) st).qAcc,
       (elems.foldl (process_export_step B) st).qBatches)
        = (elems.map quantityOf).foldl (batchStep B) (st.qAcc, st.qBatches) := by
  intro elems
  induction elems with
  | nil => intro st; rfl
  | cons e es ih =>
    intro st
    rw [List.map_cons, List.foldl_cons, List.foldl_cons, ih (process_export_step B st e)]
    rfl

theorem process_export_c_proj (B : ℕ) :
    ∀ (elems : List XmlElem) (st : BatchState),
      ((elems.foldl (process_export_step B) st).cAcc,
       (elems.foldl (process_export_step B) st).cBatches)
        = (elems.map categoryOf).foldl (batchStep B) (st.cAcc, st.cBatches) := by
  intro elems
  induction elems with
  | nil => intro st; rfl
  | cons e es ih =>
    intro st
    rw [List.map_cons, List.foldl_cons, List.foldl_cons, ih (process_export_step B st e)]
    rfl

theorem process_export_w_proj (B : ℕ) :
    ∀ (elems : List XmlElem) (st : BatchState),
      ((elems.foldl (process_export_step B) st).wAcc,
       (elems.foldl (process_export_step B) st).wBatches)
        = (elems.map workoutOf).foldl (batchStep B) (st.wAcc, st.wBatches) := by
  intro elems
  induction elems with
  | nil => intro st; rfl
  | cons e es ih =>
    intro st
    rw [List.map_cons, List.foldl_cons, List.foldl_cons, ih (process_export_step B st e)]
    rfl

/-- Summary facts about one kind's batches in a run with batch size `B ≥ 1`:
every batch has at most `B` records, every flushed batch except possibly the
final partial one has exactly `B`, and the concatenation of all batches is
exactly the stream of records of that kind, in order. -/
theorem exportBatches_spec {α β : Type} (B : ℕ) (hB : 1 ≤ B) (f : β → Option α)
    (elems : List β) :
    (∀ b ∈ finalFlush ((elems.map f).foldl (batchStep B) ([], [])), b.length ≤ B)
    ∧ (∀ b ∈ (finalFlush ((elems.map f).foldl (batchStep B) ([], []))).dropLast,
        b.length = B)
    ∧ (finalFlush ((elems.map f).foldl (batchStep B) ([], []))).flatten
        = elems.filterMap f := by
  obtain ⟨h1, h2, h3⟩ := batchFold_inv B hB (elems.map f) ([], [])
    (by simpa using hB) (by intro b hb; cases hb)
  refine ⟨finalFlush_sizes B _ h1 h2, finalFlush_dropLast B _ h2, ?_⟩
  rw [finalFlush_flatten, h3]
  simp [List.reduceOption, List.filterMap_map]

/-! ### Claim theorems -/

/-- C1 counterexample: ingestion is not idempotent for every canonical record
kind.  Re-ingesting the same single-row glucose CSV into the table produced by
the first run inserts the row again — the glucose INSERT names no conflict
target and leaves the unique-key columns `source` and `device_id` NULL, and
NULLs in a unique constraint are distinct, so nothing ever conflicts;
likewise a category record stored with a NULL `value` (a nullable column of
that table's unique key) is re-inserted as a duplicate on the second run. -/
theorem ingestion_not_idempotent_cex :
    ingest_glucose_data
        (ingest_glucose_data [] [⟨.parsed 1000, some 95, none, none⟩]).1
        [⟨.parsed 1000, some 95, none, none⟩]
      = ([⟨1000, 95, none, none, none, none, none⟩,
          ⟨1000, 95, none, none, none, none, none⟩], 1)
    ∧ insert_category_records_batch
        (insert_category_records_batch []
          [⟨some "HKCategoryTypeIdentifierSleepAnalysis", .parsed 1, .parsed 2,
            none, some "A"⟩]).1
        [⟨some "HKCategoryTypeIdentifierSleepAnalysis", .parsed 1, .parsed 2,
          none, some "A"⟩]
      = ([⟨"HKCategoryTypeIdentifierSleepAnalysis", 1, 2, none, "A"⟩,
          ⟨"HKCategoryTypeIdentifierSleepAnalysis", 1, 2, none, "A"⟩], 1) := by
  decide

/-- C1 amended (idempotence of ingestion, except NULL-keyed rows): re-running
an ingestion against the tables produced by its first run inserts zero new
rows and leaves the tables unchanged for quantity records, workouts (the
Apple Health run), food-log entries and body measurements, and for category
records whose `value` is present — for these a record whose natural key
already exists is silently skipped, never duplicated, never updated, never an
error.  The exceptions are category records stored with a NULL `value` and
every glucose reading: the glucose INSERT supplies neither `source` nor
`device_id`, the columns of the table's unique constraint, so (NULLs being
distinct) it skips nothing and appends every processed row again on every
run. -/
theorem ingestion_idempotent_amended :
    (∀ (B : ℕ) (hs : List HealthRow) (cs : List CatRow) (ws : List WorkoutRow)
       (elems : List XmlElem),
      (apple_ingest B (apple_ingest B hs cs ws elems).1.1
          (apple_ingest B hs cs ws elems).2.1.1
          (apple_ingest B hs cs ws elems).2.2.1 elems).1
        = ((apple_ingest B hs cs ws elems).1.1, 0)
      ∧ (apple_ingest B (apple_ingest B hs cs ws elems).1.1
          (apple_ingest B hs cs ws elems).2.1.1
          (apple_ingest B hs cs ws elems).2.2.1 elems).2.2
        = ((apple_ingest B hs cs ws elems).2.2.1, 0))
    ∧ (∀ (store : List CatRow) (batch : List RawCatRecord),
        (∀ r ∈ catValidRecords batch, r.value ≠ none) →
        insert_category_records_batch
            (insert_category_records_batch store batch).1 batch
          = ((insert_category_records_batch store batch).1, 0))
    ∧ (∀ (startDate endDate : Option ℤ) (bsz : ℕ) (store : List FoodRow)
         (rows : List LoseItRaw), 1 ≤ bsz →
        ingest_loseit startDate endDate bsz
            (ingest_loseit startDate endDate bsz store rows) rows
          = ingest_loseit startDate endDate bsz store rows)
    ∧ (∀ (store : List ScaleRow) (rows : List ScaleRaw),
        insert_scale_data (insert_scale_data store (process_scale_csv rows)).1
            (process_scale_csv rows)
          = ((insert_scale_data store (process_scale_csv rows)).1, 0))
    ∧ (∀ (store : List GlucoseTableRow) (df : List GlucoseRow),
        glucose_insert store df = (store ++ df.map glucoseToTable, df.length)) := by
  refine ⟨?_, ?_, ?_, ?_, ?_⟩
  · intro B hs cs ws elems
    constructor <;> simp [apple_ingest, loadBatches_idem]
  · intro store batch h
    unfold insert_category_records_batch
    refine insertNoConflictN_idem catKeyN store (catValidRecords batch) ?_
    intro r hr
    have hv := h r hr
    unfold catKeyN
    cases hval : r.value with
    | none => exact absurd hval hv
    | some v => simp
  · intro startDate endDate bsz store rows _
    unfold ingest_loseit insert_food_log
    rw [loadBatches_idem]
  · intro store rows
    unfold insert_scale_data
    exact insertNoConflict_idem scaleKey store (process_scale_csv rows)
  · intro store df
    unfold glucose_insert
    rw [insertNoConflictN_all_none glucoseTableKey (df.map glucoseToTable) store ?_]
    · rw [List.length_map]
    · intro r hr
      obtain ⟨g, _, rfl⟩ := List.mem_map.mp hr
      rfl

/-- C1 witness: the amended theorem applied to a concrete category batch whose
record carries a value, and to a concrete food-log re-ingestion with batch
size 10. -/
theorem ingestion_idempotent_amended_witness :
    (∀ r ∈ catValidRecords
        [⟨some "HKCategoryTypeIdentifierSleepAnalysis", .parsed 1, .parsed 2,
          some "InBed", some "A"⟩], r.value ≠ none)
    ∧ insert_category_records_batch
        (insert_category_records_batch []
          [⟨some "HKCategoryTypeIdentifierSleepAnalysis", .parsed 1, .parsed 2,
            some "InBed", some "A"⟩]).1
        [⟨some "HKCategoryTypeIdentifierSleepAnalysis", .parsed 1, .parsed 2,
          some "InBed", some "A"⟩]
      = ((insert_category_records_batch []
          [⟨some "HKCategoryTypeIdentifierSleepAnalysis", .parsed 1, .parsed 2,
            some "InBed", some "A"⟩]).1, 0)
    ∧ (1 : ℕ) ≤ 10
    ∧ ingest_loseit none none 10
        (ingest_loseit none none 10 []
          [⟨.parsed 10, some "Lunch", some "Apple", .num 100, .num 1, .num 2, .num 3⟩])
        [⟨.parsed 10, some "Lunch", some "Apple", .num 100, .num 1, .num 2, .num 3⟩]
      = ingest_loseit none none 10 []
          [⟨.parsed 10, some "Lunch", some "Apple", .num 100, .num 1, .num 2, .num 3⟩] :=
  ⟨by decide,
   ingestion_idempotent_amended.2.1 []
     [⟨some "HKCategoryTypeIdentifierSleepAnalysis", .parsed 1, .parsed 2,
       some "InBed", some "A"⟩] (by decide),
   by decide,
   ingestion_idempotent_amended.2.2.1 none none 10 []
     [⟨.parsed 10, some "Lunch", some "Apple", .num 100, .num 1, .num 2, .num 3⟩]
     (by decide)⟩

/-- C3 counterexample: two runs of `insert_health_records_batch` return the
same single integer `1`, yet one attempted 1 record with 0 duplicate skips and
the other attempted 2 records with 1 duplicate skip — so the return value is
one count, not the claimed `(attempted, inserted, skipped_as_duplicate)`
triple. -/
theorem loader_single_count_cex :
    (insert_health_records_batch []
        [⟨some "T", .parsed 0, .parsed 1, .num 1, none, some "S"⟩]).2 = 1
    ∧ attemptedCount [⟨some "T", .parsed 0, .parsed 1, .num 1, none, some "S"⟩] = 1
    ∧ dupSkipped healthKey []
        (healthValidRecords [⟨some "T", .parsed 0, .parsed 1, .num 1, none, some "S"⟩]) = 0
    ∧ (insert_health_records_batch [⟨"T", 0, 1, 1, none, "S"⟩]
        [⟨some "T", .parsed 0, .parsed 1, .num 1, none, some "S"⟩,
         ⟨some "T", .parsed 2, .parsed 3, .num 2, none, some "S"⟩]).2 = 1
    ∧ attemptedCount [⟨some "T", .parsed 0, .parsed 1, .num 1, none, some "S"⟩,
         ⟨some "T", .parsed 2, .parsed 3, .num 2, none, some "S"⟩] = 2
    ∧ dupSkipped healthKey [⟨"T", 0, 1, 1, none, "S"⟩]
        (healthValidRecords [⟨some "T", .parsed 0, .parsed 1, .num 1, none, some "S"⟩,
         ⟨some "T", .parsed 2, .parsed 3, .num 2, none, some "S"⟩]) = 1 := by
  decide

/-- C3 amended: the Loader returns a single integer — the number of rows newly
inserted for the batch; it satisfies inserted + duplicates-skipped = attempted
(the validated rows), there being no per-record failure path inside the batch
insert. -/
theorem loader_count_equation (store : List HealthRow) (batch : List RawRecord) :
    (insert_health_records_batch store batch).2
        + dupSkipped healthKey store (healthValidRecords batch)
      = attemptedCount batch :=
  insertNoConflict_count healthKey (healthValidRecords batch) store

/-- C8 (batcher bound and completeness): with configured batch size `B ≥ 1`,
every batch of every kind handed to a loader has at most `B` records, every
batch except possibly the final partial one has exactly `B` records (a batch is
flushed as soon as its size reaches `B`), and concatenating the batches of one
kind in flush order gives exactly the accepted records of that kind in stream
order — so every record is flushed in exactly one batch, the remainder at
end-of-stream. -/
theorem batcher_bound_and_completeness (B : ℕ) (hB : 1 ≤ B) (elems : List XmlElem) :
    ((∀ b ∈ exportQuantityBatches B elems, b.length ≤ B)
      ∧ (∀ b ∈ (exportQuantityBatches B elems).dropLast, b.length = B)
      ∧ (exportQuantityBatches B elems).flatten = elems.filterMap quantityOf)
    ∧ ((∀ b ∈ exportCategoryBatches B elems, b.length ≤ B)
      ∧ (∀ b ∈ (exportCategoryBatches B elems).dropLast, b.length = B)
      ∧ (exportCategoryBatches B elems).flatten = elems.filterMap categoryOf)
    ∧ ((∀ b ∈ exportWorkoutBatches B elems, b.length ≤ B)
      ∧ (∀ b ∈ (exportWorkoutBatches B elems).dropLast, b.length = B)
      ∧ (exportWorkoutBatches B elems).flatten = elems.filterMap workoutOf) := by
  have hq := process_export_q_proj B elems initialBatchState
  have hc := process_export_c_proj B elems initialBatchState
  have hw := process_export_w_proj B elems initialBatchState
  have eqq : exportQuantityBatches B elems
      = finalFlush ((elems.map quantityOf).foldl (batchStep B) ([], [])) := by
    unfold exportQuantityBatches process_apple_health_export
    show finalFlush
        ((List.foldl (process_export_step B) initialBatchState elems).qAcc,
         (List.foldl (process_export_step B) initialBatchState elems).qBatches)
      = _
    rw [hq]
    rfl
  have eqc : exportCategoryBatches B elems
      = finalFlush ((elems.map categoryOf).foldl (batchStep B) ([], [])) := by
    unfold exportCategoryBatches process_apple_health_export
    show finalFlush
        ((List.foldl (process_export_step B) initialBatchState elems).cAcc,
         (List.foldl (process_export_step B) initialBatchState elems).cBatches)
      = _
    rw [hc]
    rfl
  have eqw : exportWorkoutBatches B elems
      = finalFlush ((elems.map workoutOf).foldl (batchStep B) ([], [])) := by
    unfold exportWorkoutBatches process_apple_health_export
    show finalFlush
        ((List.foldl (process_export_step B) initialBatchState elems).wAcc,
         (List.foldl (process_export_step B) initialBatchState elems).wBatches)
      = _
    rw [hw]
    rfl
  rw [eqq, eqc, eqw]
  exact ⟨exportBatches_spec B hB quantityOf elems,
         exportBatches_spec B hB categoryOf elems,
         exportBatches_spec B hB workoutOf elems⟩

/-- C8 witness: the batcher theorem applied at batch size 2 to a concrete
six-element stream. -/
theorem batcher_bound_and_completeness_witness :
    1 ≤ 2 ∧
    (((∀ b ∈ exportQuantityBatches 2 sampleExportElems, b.length ≤ 2)
      ∧ (∀ b ∈ (exportQuantityBatches 2 sampleExportElems).dropLast, b.length = 2)
      ∧ (exportQuantityBatches 2 sampleExportElems).flatten
          = sampleExportElems.filterMap quantityOf)
    ∧ ((∀ b ∈ exportCategoryBatches 2 sampleExportElems, b.length ≤ 2)
      ∧ (∀ b ∈ (exportCategoryBatches 2 sampleExportElems).dropLast, b.length = 2)
      ∧ (exportCategoryBatches 2 sampleExportElems).flatten
          = sampleExportElems.filterMap categoryOf)
    ∧ ((∀ b ∈ exportWorkoutBatches 2 sampleExportElems, b.length ≤ 2)
      ∧ (∀ b ∈ (exportWorkoutBatches 2 sampleExportElems).dropLast, b.length = 2)
      ∧ (exportWorkoutBatches 2 sampleExportElems).flatten
          = sampleExportElems.filterMap workoutOf)) :=
  ⟨by decide, batcher_bound_and_completeness 2 (by decide) sampleExportElems⟩

/-- C2 counterexample: a quantity record whose parsed start time 100 is
strictly after its parsed end time 50 is not rejected by the validation stage
of `insert_health_records_batch`: it is inserted into an empty store as-is. -/
theorem ordering_not_enforced_cex :
    insert_health_records_batch []
        [⟨some "HKQuantityTypeIdentifierBodyMass", .parsed 100, .parsed 50,
          .num 70, some "kg", some "Scale"⟩]
      = ([⟨"HKQuantityTypeIdentifierBodyMass", 100, 50, 70, some "kg", "Scale"⟩], 1)
    ∧ (50 : ℤ) < 100 := by
  decide

/-- C2 amended: the validation stage rejects only records with unparsable
timestamps or missing required fields; it never compares start with end, so an
otherwise-valid record whose start time is strictly after its end time passes
validation in all three time-ranged kinds and reaches the loader with its
timestamps unchanged. -/
theorem ordering_violation_not_rejected :
    (∀ (record : RawRecord) (s e : ℤ) (v : ℚ),
      validate_and_parse_timestamp record.startDate = some s →
      validate_and_parse_timestamp record.endDate = some e →
      parse_numeric_value record.value = some v →
      pyTruthyStr record.type = true →
      e < s →
      (healthValidRecords [record]).map (fun row => (row.start_date, row.end_date))
        = [(s, e)])
    ∧ (∀ (record : RawCatRecord) (s e : ℤ),
      validate_and_parse_timestamp record.startDate = some s →
      validate_and_parse_timestamp record.endDate = some e →
      pyTruthyStr record.type = true →
      e < s →
      (catValidRecords [record]).map (fun row => (row.start_date, row.end_date))
        = [(s, e)])
    ∧ (∀ (w : RawWorkout) (s e : ℤ),
      validate_and_parse_timestamp w.startDate = some s →
      validate_and_parse_timestamp w.endDate = some e →
      pyTruthyStr w.workoutActivityType = true →
      e < s →
      (workoutValidRecords [w]).map (fun row => (row.start_date, row.end_date))
        = [(s, e)]) := by
  refine ⟨?_, ?_, ?_⟩
  · intro record s e v h1 h2 h3 h4 _
    simp [healthValidRecords, h1, h2, h3, h4]
  · intro record s e h1 h2 h3 _
    simp [catValidRecords, h1, h2, h3]
  · intro w s e h1 h2 h3 _
    simp [workoutValidRecords, h1, h2, h3]

/-- C2 witness: the amended theorem applied, per kind, to concrete records
with start 100 and end 50. -/
theorem ordering_violation_not_rejected_witness :
    (healthValidRecords [⟨some "T", .parsed 100, .parsed 50, .num 1, none, some "S"⟩]).map
        (fun row => (row.start_date, row.end_date)) = [(100, 50)]
    ∧ (catValidRecords [⟨some "C", .parsed 100, .parsed 50, some "v", some "S"⟩]).map
        (fun row => (row.start_date, row.end_date)) = [(100, 50)]
    ∧ (workoutValidRecords
        [⟨some "W", .parsed 100, .parsed 50, .num 60, none, .absent, none, .absent,
          none, some "S"⟩]).map
        (fun row => (row.start_date, row.end_date)) = [(100, 50)] :=
  ⟨ordering_violation_not_rejected.1
      ⟨some "T", .parsed 100, .parsed 50, .num 1, none, some "S"⟩ 100 50 1
      rfl rfl rfl (by decide) (by decide),
   ordering_violation_not_rejected.2.1
      ⟨some "C", .parsed 100, .parsed 50, some "v", some "S"⟩ 100 50
      rfl rfl (by decide) (by decide),
   ordering_violation_not_rejected.2.2
      ⟨some "W", .parsed 100, .parsed 50, .num 60, none, .absent, none, .absent,
        none, some "S"⟩ 100 50
      rfl rfl (by decide) (by decide)⟩

/-- C4 counterexample: with a store error raised on the second record of the
batch, the loader rolls the whole batch back and returns 0; the first,
non-offending record is not retried or committed — there is no
record-by-record retry pass in the code. -/
theorem batch_failure_no_retry_cex :
    insert_health_records_batch_failing (fun r => r.type == "BAD") []
        [⟨some "GOOD", .parsed 0, .parsed 1, .num 1, none, some "S"⟩,
         ⟨some "BAD", .parsed 2, .parsed 3, .num 2, none, some "S"⟩]
      = ([], 0)
    ∧ healthValidRecords
        [⟨some "GOOD", .parsed 0, .parsed 1, .num 1, none, some "S"⟩,
         ⟨some "BAD", .parsed 2, .parsed 3, .num 2, none, some "S"⟩]
      = [⟨"GOOD", 0, 1, 1, none, "S"⟩, ⟨"BAD", 2, 3, 2, none, "S"⟩]
    ∧ ((⟨"GOOD", 0, 1, 1, none, "S"⟩ : HealthRow).type == "BAD") = false := by
  decide

/-- C4 amended: a batch-level store failure causes the whole batch to be
rolled back atomically and the loader to report zero inserted rows; no retry
at reduced granularity happens, so no record of the failing batch — offending
or not — is committed. -/
theorem batch_failure_rolls_back (fails : HealthRow → Bool) (store : List HealthRow)
    (batch : List RawRecord) (h : (healthValidRecords batch).any fails = true) :
    insert_health_records_batch_failing fails store batch = (store, 0) := by
  unfold insert_health_records_batch_failing
  rw [if_pos h]

/-- C4 witness: the amended theorem applied to a concrete failing batch over a
non-empty store. -/
theorem batch_failure_rolls_back_witness :
    ((healthValidRecords [⟨some "BAD", .parsed 2, .parsed 3, .num 2, none, some "S"⟩]).any
        (fun r => r.type == "BAD") = true)
    ∧ insert_health_records_batch_failing (fun r => r.type == "BAD")
        [⟨"X", 9, 9, 9, none, "S"⟩]
        [⟨some "BAD", .parsed 2, .parsed 3, .num 2, none, some "S"⟩]
      = ([⟨"X", 9, 9, 9, none, "S"⟩], 0) :=
  ⟨by decide,
   batch_failure_rolls_back (fun r => r.type == "BAD") [⟨"X", 9, 9, 9, none, "S"⟩]
     [⟨some "BAD", .parsed 2, .parsed 3, .num 2, none, some "S"⟩] (by decide)⟩

/-- C5 counterexample: a glucose CSV row whose date/time combination is
unparsable is silently discarded — the pipeline output is identical with and
without the row, so the drop is neither counted nor classified (no
`InvalidTimestamp` is produced anywhere) and leaves no trace at all. -/
theorem glucose_silent_drop_cex :
    glucose_process
        [⟨.parsed 1000, some 95, some "before breakfast", none⟩,
         ⟨.unparsable, some 120, some "after lunch", none⟩]
      = glucose_process [⟨.parsed 1000, some 95, some "before breakfast", none⟩] := rfl

/-- C5 amended: a glucose row with an unparsable date/time combination is
dropped silently by `dropna`: removing it leaves the pipeline output exactly
unchanged (nothing counts or classifies it), and its presence does not abort
processing of the surrounding rows. -/
theorem glucose_unparsable_row_dropped (pre post : List GlucoseRaw) (r : GlucoseRaw)
    (h : to_datetime_coerce r.datetime = none) :
    glucose_process (pre ++ r :: post) = glucose_process (pre ++ post) := by
  unfold glucose_process
  rw [List.filterMap_append, List.filterMap_append, List.filterMap_cons]
  simp [h]

/-- C5 witness: the amended theorem applied to a concrete unparsable row
between two valid rows. -/
theorem glucose_unparsable_row_dropped_witness :
    to_datetime_coerce TSAttr.unparsable = none
    ∧ glucose_process
        ([⟨.parsed 1000, some 95, none, none⟩]
          ++ ⟨.unparsable, some 120, none, none⟩ :: [⟨.parsed 2000, some 101, none, none⟩])
      = glucose_process
        ([⟨.parsed 1000, some 95, none, none⟩] ++ [⟨.parsed 2000, some 101, none, none⟩]) :=
  ⟨rfl,
   glucose_unparsable_row_dropped [⟨.parsed 1000, some 95, none, none⟩]
     [⟨.parsed 2000, some 101, none, none⟩] ⟨.unparsable, some 120, none, none⟩ rfl⟩

/-- C6 counterexample: in the cited `ingest_lose_it.py` pipeline a missing
calorie value, a non-numeric one, and one that is numeric only after removing
a thousands separator (e.g. "1,234") are all persisted as 0 — not as
None/absent — so no separator stripping happens before parsing there. -/
theorem numeric_zero_fill_cex :
    (process_loseit_rows
      [⟨.parsed 10, some "Lunch", some "Apple", .absent, .num 1, .num 2, .num 3⟩,
       ⟨.parsed 11, some "Lunch", some "Bread", .nonnumeric, .num 1, .num 2, .num 3⟩,
       ⟨.parsed 12, some "Lunch", some "Rice", .numSep 1234, .num 1, .num 2, .num 3⟩]).map
      CleanRow.calories_consumed = [0, 0, 0]
    ∧ (ingest_loseit none none 10 []
        [⟨.parsed 10, some "Lunch", some "Apple", .absent, .num 1, .num 2, .num 3⟩]).map
      FoodRow.calories_consumed = [0] := by
  decide

/-- C6 amended: in the `ingest_lose_it.py` pipeline a missing or unparsable
numeric source value is coerced to 0, never left absent, and thousands
separators are not stripped (a separator-formatted number also becomes 0);
only the separate `ingest_loseit.py` variant strips separators before parsing
and leaves genuinely non-numeric calories absent rather than raising. -/
theorem numeric_coercion_amended :
    (∀ v : NumAttr, to_numeric_coerce v = none → to_numeric_fill0 v = 0)
    ∧ (∀ q : ℚ, to_numeric_fill0 (.num q) = q)
    ∧ to_numeric_fill0 (.numSep 1234) = 0
    ∧ (∀ q : ℚ, insert_df_calories (.numSep q) = some q)
    ∧ insert_df_calories .nonnumeric = none
    ∧ insert_df_calories .absent = none := by
  refine ⟨?_, fun q => rfl, rfl, fun q => rfl, rfl, rfl⟩
  intro v h
  unfold to_numeric_fill0
  rw [h]
  rfl

/-- C6 witness: the amended coercion theorem applied to a concrete non-numeric
value. -/
theorem numeric_coercion_amended_witness :
    to_numeric_coerce NumAttr.nonnumeric = none
    ∧ to_numeric_fill0 NumAttr.nonnumeric = 0 :=
  ⟨rfl, numeric_coercion_amended.1 NumAttr.nonnumeric rfl⟩

/-- C7 (unit conversion): a weight that arrives in pounds is multiplied
exactly once by the fixed factor 0.453592 in `process_scale_csv`, so an input
of 150 pounds persists as 68.0388 kg, in particular within the 0.0001
tolerance. -/
theorem weight_pounds_to_kg (r : ScaleRaw) (t : ℤ) (w : ℚ)
    (h1 : to_datetime_coerce r.timestamp = some t)
    (h2 : to_numeric_coerce r.weight_lb = some w) :
    (process_scale_row r).map ScaleRow.weight_kg = some (some (w * LB_TO_KG))
    ∧ (150 : ℚ) * LB_TO_KG = 680388 / 10000
    ∧ |(150 : ℚ) * LB_TO_KG - 680388 / 10000| ≤ 1 / 10000 := by
  refine ⟨?_, by norm_num [LB_TO_KG], by norm_num [LB_TO_KG]⟩
  unfold process_scale_row
  rw [h1, h2]
  rfl

/-- C7 witness: the conversion theorem applied to a concrete scale row with a
weight of 150 pounds. -/
theorem weight_pounds_to_kg_witness :
    to_datetime_coerce (TSAttr.parsed 7) = some 7
    ∧ to_numeric_coerce (NumAttr.num 150) = some 150
    ∧ (process_scale_row
        ⟨.parsed 7, .num 150, .absent, .num 22, .num 24, .absent, .absent, .num 55⟩).map
        ScaleRow.weight_kg = some (some (150 * LB_TO_KG))
    ∧ (150 : ℚ) * LB_TO_KG = 680388 / 10000
    ∧ |(150 : ℚ) * LB_TO_KG - 680388 / 10000| ≤ 1 / 10000 :=
  ⟨rfl, rfl,
   (weight_pounds_to_kg
      ⟨.parsed 7, .num 150, .absent, .num 22, .num 24, .absent, .absent, .num 55⟩
      7 150 rfl rfl).1,
   (weight_pounds_to_kg
      ⟨.parsed 7, .num 150, .absent, .num 22, .num 24, .absent, .absent, .num 55⟩
      7 150 rfl rfl).2.1,
   (weight_pounds_to_kg
      ⟨.parsed 7, .num 150, .absent, .num 22, .num 24, .absent, .absent, .num 55⟩
      7 150 rfl rfl).2.2⟩

/-- C9 (inclusive date filter): with both bounds supplied a record passes the
filter of `ingest_loseit` iff its date lies in the closed interval
[start, end] — boundary dates are retained; concretely, with start 2024-01-01
and end 2024-01-31 (dates encoded as integers 20240101 / 20240131), records
dated 2024-01-01, 2024-01-15 and 2024-01-31 are persisted while one dated
2024-02-01 is dropped before insertion and never persisted. -/
theorem date_filter_inclusive :
    (∀ (s e : ℤ) (rows : List CleanRow) (r : CleanRow),
      r ∈ filter_dates (some s) (some e) rows
        ↔ r ∈ rows ∧ s ≤ r.log_date ∧ r.log_date ≤ e)
    ∧ ingest_loseit (some 20240101) (some 20240131) 10 []
        [⟨.parsed 20240101, some "L", some "A", .num 100, .num 1, .num 2, .num 3⟩,
         ⟨.parsed 20240115, some "L", some "B", .num 100, .num 1, .num 2, .num 3⟩,
         ⟨.parsed 20240131, some "L", some "C", .num 100, .num 1, .num 2, .num 3⟩,
         ⟨.parsed 20240201, some "L", some "D", .num 100, .num 1, .num 2, .num 3⟩]
      = [⟨20240101, "L", "A", 100, 1, 2, 3, "LoseIt"⟩,
         ⟨20240115, "L", "B", 100, 1, 2, 3, "LoseIt"⟩,
         ⟨20240131, "L", "C", 100, 1, 2, 3, "LoseIt"⟩] := by
  refine ⟨?_, by decide⟩
  intro s e rows r
  unfold filter_dates
  simp only [List.mem_filter, decide_eq_true_eq]
  tauto

/-- C10 (workout duration fallback): for a workout passing validation, when
the raw duration attribute is missing or non-numeric (parses to None) or
parses to 0, the persisted duration_seconds is end_date minus start_date in
seconds; when it parses to a nonzero number that value is persisted
unchanged. -/
theorem workout_duration_fallback :
    (∀ (w : RawWorkout) (s e : ℤ),
      validate_and_parse_timestamp w.startDate = some s →
      validate_and_parse_timestamp w.endDate = some e →
      pyTruthyStr w.workoutActivityType = true →
      (parse_numeric_value w.duration = none ∨ parse_numeric_value w.duration = some 0) →
      (workoutValidRecords [w]).map WorkoutRow.duration_seconds
        = [some ((e - s : ℤ) : ℚ)])
    ∧ (∀ (w : RawWorkout) (s e : ℤ) (q : ℚ),
      validate_and_parse_timestamp w.startDate = some s →
      validate_and_parse_timestamp w.endDate = some e →
      pyTruthyStr w.workoutActivityType = true →
      parse_numeric_value w.duration = some q → q ≠ 0 →
      (workoutValidRecords [w]).map WorkoutRow.duration_seconds = [some q]) := by
  constructor
  · intro w s e h1 h2 h3 h4
    rcases h4 with h4 | h4 <;>
      simp [workoutValidRecords, h1, h2, h3, h4, pyTruthyNum]
  · intro w s e q h1 h2 h3 h4 h5
    simp [workoutValidRecords, h1, h2, h3, h4, pyTruthyNum, h5]

/-- C10 witness: the fallback theorem applied to concrete workouts — one with
a missing duration attribute (falls back to 20 - 10 seconds) and one with
duration 600 (kept unchanged). -/
theorem workout_duration_fallback_witness :
    validate_and_parse_timestamp (TSAttr.parsed 10) = some 10
    ∧ (workoutValidRecords
        [⟨some "W", .parsed 10, .parsed 20, .absent, none, .absent, none, .absent,
          none, some "S"⟩]).map WorkoutRow.duration_seconds
      = [some ((20 - 10 : ℤ) : ℚ)]
    ∧ (workoutValidRecords
        [⟨some "W", .parsed 10, .parsed 20, .num 600, none, .absent, none, .absent,
          none, some "S"⟩]).map WorkoutRow.duration_seconds
      = [some 600] :=
  ⟨rfl,
   workout_duration_fallback.1
     ⟨some "W", .parsed 10, .parsed 20, .absent, none, .absent, none, .absent,
      none, some "S"⟩ 10 20 rfl rfl (by decide) (Or.inl rfl),
   workout_duration_fallback.2
     ⟨some "W", .parsed 10, .parsed 20, .num 600, none, .absent, none, .absent,
      none, some "S"⟩ 10 20 600 rfl rfl (by decide) rfl (by decide)⟩
